import Mathlib

/-!
Verification of the ps3netsrv-go file server against its specification.

The definitions below are shallow embeddings of the Go source:

* size arithmetic of pkg/fs/iso9660.go (sizeBytes / sizeSectors),
* VirtualISO.calculateSizes, VirtualISO.scanDirectory and VirtualISO.read of
  pkg/fs/virtual_iso.go, dirItemList.filesToRead of virtual_iso_items.go,
* the unencrypted-region-map validation of NewEncryptedISO and the sector
  selection of EncryptedISO.decryptData (encrypted-ISO code),
* ISO3k3y.clear3k3yData and the write stubs of the overlays,
* the session handlers HandleOpenDir / HandleOpenFile / HandleCreateFile /
  HandleWriteFile / HandleGetDirSize / HandleReadCD2048Critical,
* Copier.CopyN (internal/copier/copier.go),
* FS.OpenFile with the magic virtual-ISO path translation (pkg/fs/fs.go).

Go int64 / int32 values are modelled as Int (with Int.tdiv / Int.tmod for the
truncated division of Go), uint32 values as Nat where they stay in range, byte
buffers as List Nat, and fallible operations as Except / Option.  A result of
none for a function that models an in-place loop stands for a Go runtime panic
(out-of-range slice index); a fuel argument models general recursion, with the
value none standing for divergence.  Collaborator behaviour outside the
repository (the afero filesystem port, file handles) is modelled by oracle
records whose fields give the outcome of each collaborator call.
-/

namespace Ps3netsrv

/-- Sector size in bytes, constant sectorSize of pkg/fs/iso9660.go. -/
def sectorSize : Int := 2048

/-- Truncated remainder, the semantics of the Go % operator on int64. -/
def goMod (a b : Int) : Int := Int.tmod a b

/-- Truncated quotient, the semantics of the Go / operator on int64. -/
def goDiv (a b : Int) : Int := Int.tdiv a b

/-- Translation of sizeBytes.floorSectors (iso9660.go): b / sectorSize. -/
def floorSectors (b : Int) : Int := goDiv b sectorSize

/-- Translation of sizeBytes.sectors (iso9660.go): floor plus one when a
remainder is left. -/
def sectors (b : Int) : Int :=
  floorSectors b + (if goMod b sectorSize > 0 then 1 else 0)

/-- Translation of sizeSectors.bytes (iso9660.go): sectorSize * s. -/
def sectorBytes (s : Int) : Int := sectorSize * s

/-- Constant basePadSectors = 0x20 of pkg/fs/virtual_iso.go. -/
def basePadSectors : Int := 32

/-- Result record of VirtualISO.calculateSizes: the four size fields the
method stores on the VirtualISO value. -/
structure VisoSizes where
  volumeSizeSectors : Int
  totalSize : Int
  padAreaStart : Int
  padAreaSize : Int
deriving Repr, DecidableEq

/-- Translation of VirtualISO.calculateSizes (pkg/fs/virtual_iso.go).
Inputs are the filesLBA argument and the filesSizeSectors field the method
reads; both are sizeSectors values. -/
def calculateSizes (filesLBA filesSizeSectors : Int) : VisoSizes :=
  let volumeSize := filesLBA + filesSizeSectors
  let extraPad := goMod volumeSize basePadSectors
  let padSectors := basePadSectors + (if extraPad > 0 then basePadSectors - extraPad else 0)
  let volumeSizeWithPad := volumeSize + padSectors
  { volumeSizeSectors := volumeSizeWithPad
    totalSize := sectorBytes volumeSizeWithPad
    padAreaStart := sectorBytes volumeSize
    padAreaSize := sectorBytes padSectors }

/-- Smallest multiple of 32 sectors that is at least n; the rounding step the
spec describes for the total image size. -/
def ceilTo32Sectors (n : Int) : Int := n + (32 - n % 32) % 32

/-! ### Encrypted-ISO region map (NewEncryptedISO, EncryptedISO.decryptData) -/

/-- Record unencryptedRegion of the encrypted-ISO code: one u32 start / u32
stop pair of the region map read from the image header (field End of the Go
struct is called stop here because end is reserved in Lean). -/
structure URegion where
  start : Nat
  stop : Nat
deriving Repr, DecidableEq

/-- Record region of the encrypted-ISO code: an encrypted sector range with
sizeSectors (int32) fields (field end of the Go struct is called stop here). -/
structure EncRegion where
  start : Int
  stop : Int
deriving Repr, DecidableEq

/-- Translation of the validation loop of NewEncryptedISO: walks the
unencrypted regions with the running index i and prevRegionEnd, checks that
every stop exceeds its start and that starts do not fall below the previous
stop, and for every i bigger than zero appends the gap between region i-1 and
region i to the accumulator. -/
def encRegionsLoop : List URegion → Nat → Nat → List EncRegion →
    Except String (List EncRegion)
  | [], _, _, acc => .ok acc
  | r :: rest, i, prevEnd, acc =>
    if r.stop ≤ r.start then .error "region end less than start"
    else if r.start < prevEnd then .error "region start less than previous region end"
    else if i = 0 then encRegionsLoop rest (i + 1) r.stop acc
    else encRegionsLoop rest (i + 1) r.stop
      (acc ++ [{ start := Int.ofNat prevEnd, stop := Int.ofNat r.start }])

/-- Translation of the region-map processing of NewEncryptedISO
(encrypted-ISO code): hdr.Count is the length of the region list that
binary.Read filled; after the count and first-region checks the encrypted
ranges accumulator starts as make([]region, hdr.Count-1), that is a list of
hdr.Count - 1 zero-value regions, and the loop appends the real gaps to it. -/
def newEncryptedISORegions (unencryptedRegions : List URegion) :
    Except String (List EncRegion) :=
  let count := unencryptedRegions.length
  if count < 2 then .error "unexpected unencrypted regions count"
  else
    match unencryptedRegions with
    | [] => .error "unexpected unencrypted regions count"
    | r0 :: _ =>
      if r0.start ≠ 0 then .error "region 0 start is not zero"
      else
        encRegionsLoop unencryptedRegions 0 0
          (List.replicate (count - 1) { start := 0, stop := 0 })

/-- List of the integers from lo (inclusive) to hi (exclusive). -/
def intRange (lo hi : Int) : List Int :=
  (List.range (hi - lo).toNat).map (fun k => lo + Int.ofNat k)

/-- Translation of EncryptedISO.decryptData (encrypted-ISO code) at the level
of which sector indices get decrypted: for each region of the encrypted-range
list, skipped when it ends at or before the read start sector (ceil) or starts
after the read end sector (ceil), the sectors from max(region start, floor of
read start) to min(region stop, ceil of read end) are decrypted in order. -/
def decryptedSectors (regions : List EncRegion) (start : Int) (dataLen : Nat) :
    List Int :=
  let stop : Int := start + Int.ofNat dataLen
  regions.foldl
    (fun acc r =>
      if r.stop ≤ sectors start ∨ r.start > sectors stop then acc
      else acc ++ intRange (max r.start (floorSectors start)) (min r.stop (sectors stop)))
    []

/-! ### 3k3y fingerprint masking (ISO3k3y.clear3k3yData) -/

/-- Constant _3k3yMaskedDataBegin = 0xF70 (3k3y overlay code). -/
def maskedDataBegin : Int := 0xF70

/-- Constant _3k3yMaskedDataEnd = 0xF70 + 256 (3k3y overlay code). -/
def maskedDataEnd : Int := 0xF70 + 256

/-- Iteration core of the zeroing loop of ISO3k3y.clear3k3yData: n steps of
data[lo] = 0 with lo advancing by one; none models the Go runtime panic raised
by a slice index that is out of range (in particular a negative one). -/
def zeroLoopAux : Nat → Int → List Nat → Option (List Nat)
  | 0, _, data => some data
  | n + 1, lo, data =>
    if 0 ≤ lo ∧ lo < (data.length : Int) then zeroLoopAux n (lo + 1) (data.set lo.toNat 0)
    else none

/-- Translation of the zeroing loop of ISO3k3y.clear3k3yData: data[i] = 0 for
i from lo (inclusive) to hi (exclusive). -/
def zeroLoop (lo hi : Int) (data : List Nat) : Option (List Nat) :=
  zeroLoopAux (hi - lo).toNat lo data

/-- Translation of ISO3k3y.clear3k3yData (3k3y overlay code): a read of data
at absolute offset start returns unchanged when it misses the masked range,
and otherwise zeroes the positions from _3k3yMaskedDataBegin - start up to
min(_3k3yMaskedDataEnd, end) - start. -/
def clear3k3yData (start : Int) (data : List Nat) : Option (List Nat) :=
  let stop : Int := start + Int.ofNat data.length
  if start ≥ maskedDataEnd ∨ stop < maskedDataBegin then some data
  else zeroLoop (maskedDataBegin - start) (min maskedDataEnd stop - start) data

/-! ### CREATE_FILE / WRITE_FILE (Handler.HandleCreateFile, HandleWriteFile) -/

/-- Entry of the model filesystem behind the afero.Fs port used by the
handler: a directory or a regular file with its contents. -/
inductive FsEntry where
  | dirE : FsEntry
  | fileE : List Nat → FsEntry
deriving Repr, DecidableEq

/-- Finite-map model of the filesystem: association list from path to entry. -/
abbrev FsMap : Type := List (String × FsEntry)

/-- Model of Fs.Stat and lookups: the entry stored at a path, if any. -/
def lookupFs : FsMap → String → Option FsEntry
  | [], _ => none
  | (p, e) :: rest, q => if p = q then some e else lookupFs rest q

/-- Overwrites or inserts the entry at a path. -/
def setFs : FsMap → String → FsEntry → FsMap
  | [], q, v => [(q, v)]
  | (p, e) :: rest, q, v => if p = q then (q, v) :: rest else (p, e) :: setFs rest q v

/-- Model of Fs.OpenFile with os.O_CREATE, os.O_TRUNC and os.O_WRONLY: the
path afterwards holds an empty regular file (created when absent, truncated
when present). -/
def fsOpenFileCreateTrunc (fs : FsMap) (path : String) : FsMap :=
  setFs fs path (.fileE [])

/-- Appends bytes to the regular file at a path (model of writing through an
open write-only handle positioned at end of the data written so far). -/
def appendFs (fs : FsMap) (path : String) (data : List Nat) : FsMap :=
  match lookupFs fs path with
  | some (.fileE old) => setFs fs path (.fileE (old ++ data))
  | _ => fs

/-- Outcome of Handler.HandleCreateFile: the filesystem, the write-only slot
of the session, and whether the reply is success (0) or failure (-1). -/
structure CreateResult where
  fs : FsMap
  woFile : Option String
  ok : Bool
deriving Repr, DecidableEq

/-- Translation of Handler.HandleCreateFile (internal/handler/handler.go):
refuse when writes are not allowed; close any open write-only file; Stat the
path, propagating a Stat failure as an error reply; treat an existing
directory as a request to close the write slot; otherwise open the path with
create plus truncate as the new write-only file. -/
def handleCreateFile (allowWrite : Bool) (fs : FsMap) (wo : Option String)
    (path : String) : CreateResult :=
  if !allowWrite then { fs := fs, woFile := wo, ok := false }
  else
    match lookupFs fs path with
    | none => { fs := fs, woFile := none, ok := false }
    | some .dirE => { fs := fs, woFile := none, ok := true }
    | some (.fileE _) =>
      { fs := fsOpenFileCreateTrunc fs path, woFile := some path, ok := true }

/-- Translation of Handler.HandleWriteFile (internal/handler/handler.go):
refuse when writes are not allowed or no write-only file is open, else copy
the payload into the write-only file and reply the byte count. -/
def handleWriteFile (allowWrite : Bool) (fs : FsMap) (wo : Option String)
    (data : List Nat) : FsMap × Int :=
  if !allowWrite then (fs, -1)
  else
    match wo with
    | none => (fs, -1)
    | some p => (appendFs fs p data, Int.ofNat data.length)

/-! ### GET_DIR_SIZE (Handler.HandleGetDirSize) -/

/-- Model of the filesystem seen by afero.Walk: the finite list of the
regular files under the share root, each with its path (as segments relative
to the root) and its size. -/
abbrev FileList : Type := List (List String × Nat)

/-- Checks that p is an initial run of q: the file q lies in the tree rooted
at the directory p. -/
def underDir : List String → List String → Bool
  | [], _ => true
  | _, [] => false
  | a :: as_, b :: bs => a = b && underDir as_ bs

/-- Model of the afero.Walk traversal combined with the walk function of
HandleGetDirSize: every regular file in the tree rooted at the given
directory contributes its size, directories contribute nothing, and
per-entry errors are skipped (the model has no failing entries). -/
def walkSizeSum (fs : FileList) (root : List String) : Nat :=
  (fs.filter (fun f => underDir root f.1)).foldl (fun acc f => acc + f.2) 0

/-- Path the handler passes to afero.Walk: the literal "." which names the
root of the share filesystem. -/
def currentDirPath : List String := []

/-- Translation of Handler.HandleGetDirSize (internal/handler/handler.go):
the walk starts at "." (the share root) -- the path argument of the request
is used only for logging -- and the summed size is replied. -/
def handleGetDirSize (fs : FileList) (path : List String) : Int :=
  Int.ofNat (walkSizeSum fs currentDirPath)

/-- Filesystem with two directories holding different files: a/x of size 1
and b/y of size 2. -/
def c3Files : FileList := [(["a", "x"], 1), (["b", "y"], 2)]

/-! ### Copier.CopyN and READ_CD_2048_CRITICAL -/

/-- Translation of Copier.CopyN (internal/copier/copier.go) with explicit
fuel: the body starts by calling c.CopyN with the very same arguments, then
post-processes the returned count and error.  The result carries the bytes
forwarded to the writer, the returned count and the returned error; none
models divergence (the recursion never reaches a base case). -/
def copierCopyN (fuel : Nat) (src : List Nat) (n : Int) :
    Option (List Nat × Int × Option String) :=
  match fuel with
  | 0 => none
  | fuel + 1 =>
    match copierCopyN fuel src n with
    | none => none
    | some (bytes, written, errv) =>
      if written = n then some (bytes, n, none)
      else if written < n ∧ errv = none then some (bytes, n, some "EOF")
      else some (bytes, n, errv)

/-- Session state consumed by HandleReadCD2048Critical: the read-only file
(modelled by its contents) and the detected CD sector size. -/
structure CDSessionState where
  roFile : Option (List Nat)
  cdSectorSize : Int

/-- Translation of the per-sector loop of Handler.HandleReadCD2048Critical:
seek the read-only file to the offset, stream 2048 bytes through
Copier.CopyN, advance the offset by the CD sector size. -/
def readCDLoop (fuel : Nat) (file : List Nat) (secSize : Int) :
    Int → Nat → List Nat → Option (Except String (List Nat))
  | _, 0, out => some (.ok out)
  | offset, c + 1, out =>
    if offset < 0 then some (.error "seek failed")
    else
      match copierCopyN fuel (file.drop offset.toNat) 2048 with
      | none => none
      | some (_, _, some e) => some (.error ("copy failed: " ++ e))
      | some (bytes, _, none) => readCDLoop fuel file secSize (offset + secSize) c (out ++ bytes)

/-- Translation of Handler.HandleReadCD2048Critical (the handler revision
carrying CD sector-size support): check a read-only file is open and a
positive sector size is known, start at byte offset 24 + startSector times
the detected sector size and loop over the requested sector count; none
models divergence inside Copier.CopyN. -/
def handleReadCD2048Critical (fuel : Nat) (st : CDSessionState)
    (startSector sectorsCount : Nat) : Option (Except String (List Nat)) :=
  match st.roFile with
  | none => some (.error "no file opened")
  | some file =>
    if st.cdSectorSize ≤ 0 then some (.error "sector size was not determined")
    else
      readCDLoop fuel file st.cdSectorSize
        (24 + Int.ofNat startSector * st.cdSectorSize) sectorsCount []

/-- File contents standing for an opened CD image: 3000 bytes, enough to
cover the 2048-byte read at offset 24 the claim describes. -/
def c8File : List Nat := List.replicate 3000 7

/-! ### Session handle lifecycle (HandleOpenDir, HandleOpenFile, HandleCreateFile) -/

/-- Oracle for the afero filesystem calls of the three opening handlers:
whether Open succeeds for a path, whether Stat on the opened handle succeeds,
whether the path is a directory, and the same for the Stat-by-path and the
create-open of HandleCreateFile. -/
structure HFs where
  openOk : String → Bool
  statOk : String → Bool
  isDir : String → Bool
  statPathOk : String → Bool
  statPathIsDir : String → Bool
  createOk : String → Bool

/-- Session state of internal/handler/state.go restricted to the three
handles, each an abstract handle number, plus a counter handing out fresh
handle numbers to newly opened handles. -/
structure HState where
  cwdHandle : Option Nat
  roFile : Option Nat
  woFile : Option Nat
  nextHandle : Nat
deriving Repr, DecidableEq

/-- Outcome of one opening handler: the new session state, the handles opened
during the call, the handles closed during the call, and the success of the
reply. -/
structure OpOutcome where
  state : HState
  opened : List Nat
  closed : List Nat
  ok : Bool
deriving Repr, DecidableEq

/-- Translation of Handler.HandleOpenDir (internal/handler/handler.go): open
the path; Stat the new handle, returning on failure; only then close a
previously held directory handle and install the new one, replying whether
the path is a directory. -/
def handleOpenDir (fs : HFs) (st : HState) (path : String) : OpOutcome :=
  if !fs.openOk path then { state := st, opened := [], closed := [], ok := false }
  else
    let h := st.nextHandle
    let st1 : HState := { st with nextHandle := h + 1 }
    if !fs.statOk path then { state := st1, opened := [h], closed := [], ok := false }
    else
      match st1.cwdHandle with
      | some h0 =>
        { state := { st1 with cwdHandle := some h }, opened := [h], closed := [h0]
          ok := fs.isDir path }
      | none =>
        { state := { st1 with cwdHandle := some h }, opened := [h], closed := []
          ok := fs.isDir path }

/-- Translation of Handler.HandleOpenFile (internal/handler/handler.go):
close any previously held read-only file first, then open the path -- on
failure nothing is held -- and store the new handle; the reply carries the
Stat result of the stored handle. -/
def handleOpenFile (fs : HFs) (st : HState) (path : String) : OpOutcome :=
  let closedOld := st.roFile.toList
  let st1 : HState := { st with roFile := none }
  if !fs.openOk path then { state := st1, opened := [], closed := closedOld, ok := false }
  else
    let h := st1.nextHandle
    { state := { st1 with roFile := some h, nextHandle := h + 1 }, opened := [h]
      closed := closedOld, ok := fs.statOk path }

/-- Translation of Handler.HandleCreateFile at the level of handle ownership:
refuse without the write permission; close any write-only file; Stat the path
(error reply on failure, success reply on a directory); otherwise open with
create plus truncate and store the new handle. -/
def handleCreateFileHandles (allowWrite : Bool) (fs : HFs) (st : HState)
    (path : String) : OpOutcome :=
  if !allowWrite then { state := st, opened := [], closed := [], ok := false }
  else
    let closedOld := st.woFile.toList
    let st1 : HState := { st with woFile := none }
    if !fs.statPathOk path then { state := st1, opened := [], closed := closedOld, ok := false }
    else if fs.statPathIsDir path then
      { state := st1, opened := [], closed := closedOld, ok := true }
    else if !fs.createOk path then
      { state := st1, opened := [], closed := closedOld, ok := false }
    else
      let h := st1.nextHandle
      { state := { st1 with woFile := some h, nextHandle := h + 1 }, opened := [h]
        closed := closedOld, ok := true }

/-- Whether a handle is stored in one of the three slots of the session. -/
def handleInState (st : HState) (h : Nat) : Bool :=
  st.cwdHandle == some h || st.roFile == some h || st.woFile == some h

/-- Handles a call opened and then neither closed nor stored in the session
state: leaked handles. -/
def leakedHandles (r : OpOutcome) : List Nat :=
  r.opened.filter (fun h => !(r.closed.contains h) && !(handleInState r.state h))

/-- Session-state sanity: every stored handle number is below the fresh-handle
counter. -/
def stateWf (st : HState) : Bool :=
  (match st.cwdHandle with | some h => decide (h < st.nextHandle) | none => true) &&
  (match st.roFile with | some h => decide (h < st.nextHandle) | none => true) &&
  (match st.woFile with | some h => decide (h < st.nextHandle) | none => true)

/-- Filesystem oracle on which Open succeeds but Stat on the opened handle
fails, for every path. -/
def c9BrokenFs : HFs :=
  { openOk := fun _ => true, statOk := fun _ => false, isDir := fun _ => true
    statPathOk := fun _ => true, statPathIsDir := fun _ => false
    createOk := fun _ => true }

/-- Fresh session state: no handles held. -/
def c9State0 : HState := { cwdHandle := none, roFile := none, woFile := none, nextHandle := 0 }

/-- Filesystem oracle on which every call succeeds and every path is a
directory for Stat-by-path purposes. -/
def c9OkFs : HFs :=
  { openOk := fun _ => true, statOk := fun _ => true, isDir := fun _ => true
    statPathOk := fun _ => true, statPathIsDir := fun _ => false
    createOk := fun _ => true }

/-! ### Path translation and FS.OpenFile (pkg/fs/fs.go) -/

/-- Client paths are byte strings in Go; they are modelled as byte lists. -/
abbrev GoStr : Type := List Nat

/-- Constant virtualISOMask of pkg/fs/fs.go: the bytes of /x2aDVDx2a (the
separator plus three stars, DVD, three stars). -/
def virtualISOMask : GoStr := [47, 42, 42, 42, 68, 86, 68, 42, 42, 42]

/-- Constant virtualPS3ISOMask of pkg/fs/fs.go: the bytes of /x2aPS3x2a. -/
def virtualPS3ISOMask : GoStr := [47, 42, 42, 42, 80, 83, 51, 42, 42, 42]

/-- Byte of the path separator /. -/
def pathSep : Nat := 47

/-- Enumeration fileType of pkg/fs/fs.go. -/
inductive GoFileType where
  | genericFile : GoFileType
  | virtualISOFile : GoFileType
  | virtualPS3ISOFile : GoFileType
deriving Repr, DecidableEq

/-- Translation of translatePath (pkg/fs/fs.go): a path starting with the
DVD or PS3 mask followed by a separator selects virtual-ISO synthesis and the
mask itself is trimmed from the front. -/
def translatePath (path : GoStr) : GoStr × GoFileType :=
  if List.isPrefixOf (virtualISOMask ++ [pathSep]) path then
    (path.drop virtualISOMask.length, .virtualISOFile)
  else if List.isPrefixOf (virtualPS3ISOMask ++ [pathSep]) path then
    (path.drop virtualPS3ISOMask.length, .virtualPS3ISOFile)
  else (path, .genericFile)

/-- Flag bit os.O_WRONLY (Linux value). -/
def oWRONLY : Nat := 0x1

/-- Flag bit os.O_CREATE (Linux value). -/
def oCREATE : Nat := 0x40

/-- Flag bit os.O_TRUNC (Linux value). -/
def oTRUNC : Nat := 0x200

/-- Flag bit os.O_APPEND (Linux value). -/
def oAPPEND : Nat := 0x400

/-- Translation of the modificationsEnabled test of FS.OpenFile:
flags AND (O_WRONLY | O_APPEND | O_TRUNC | O_CREATE) is not zero. -/
def modificationsEnabled (flags : Nat) : Bool :=
  (flags &&& (oWRONLY ||| oAPPEND ||| oTRUNC ||| oCREATE)) != 0

/-- Errno values surfaced by the overlays and the open path. -/
inductive Errno where
  | EPERM : Errno
  | ENOENT : Errno
  | otherError : Errno
deriving Repr, DecidableEq

/-- Result variants of FS.OpenFile: a synthesized virtual ISO, an encrypted
overlay, a 3k3y overlay (over an encrypted or a plain file), or the plain
file. -/
inductive OpenedFile where
  | visoFile : GoStr → Bool → OpenedFile
  | encryptedFile : Nat → List Nat → OpenedFile
  | threeK3YEncrypted : Nat → List Nat → OpenedFile
  | threeK3YPlain : Nat → OpenedFile
  | plainFile : Nat → OpenedFile
deriving Repr, DecidableEq

/-- Outcome of tryGetRedumpKey: a key, an ErrNotExist miss, or a hard
failure. -/
inductive KeyLookup where
  | found : List Nat → KeyLookup
  | notFound : KeyLookup
  | failed : KeyLookup

/-- Outcome of Test3k3yImage: a key (encrypted watermark), an empty key
(decrypted watermark), ErrNot3k3y, or a hard failure. -/
inductive Probe3k3y where
  | encrypted : List Nat → Probe3k3y
  | decrypted : Probe3k3y
  | not3k3y : Probe3k3y
  | failed : Probe3k3y

/-- Oracle record for the collaborator calls made by FS.OpenFile: the
underlying afero open, the construction of a virtual ISO, the redump key
lookup, the 3k3y probe and the region-map validation of NewEncryptedISO. -/
structure FsEnv where
  openRaw : GoStr → Nat → Option Nat
  visoOk : GoStr → Bool → Bool
  redumpKey : GoStr → KeyLookup
  probe3k3y : Nat → Probe3k3y
  encHeaderOk : Nat → List Nat → Bool

/-- Translation of FS.OpenFile (pkg/fs/fs.go): for a virtual path a modifying
flag set is rejected with EPERM before NewVirtualISO runs; otherwise the
underlying file is opened, wrappers are skipped entirely when a modifying
flag is set, and else the redump key lookup and the 3k3y probe select the
overlay stack. -/
def fsOpenFile (env : FsEnv) (path : GoStr) (flags : Nat) : Except Errno OpenedFile :=
  let modEnabled := modificationsEnabled flags
  let pt := translatePath path
  if pt.2 == .virtualPS3ISOFile || pt.2 == .virtualISOFile then
    if modEnabled then .error .EPERM
    else if env.visoOk pt.1 (pt.2 == .virtualPS3ISOFile) then
      .ok (.visoFile pt.1 (pt.2 == .virtualPS3ISOFile))
    else .error .otherError
  else
    match env.openRaw pt.1 flags with
    | none => .error .ENOENT
    | some f =>
      if modEnabled then .ok (.plainFile f)
      else
        match env.redumpKey pt.1 with
        | .found key =>
          if env.encHeaderOk f key then .ok (.encryptedFile f key) else .error .otherError
        | .failed => .error .otherError
        | .notFound =>
          match env.probe3k3y f with
          | .encrypted key =>
            if env.encHeaderOk f key then .ok (.threeK3YEncrypted f key) else .error .otherError
          | .decrypted => .ok (.threeK3YPlain f)
          | .not3k3y => .ok (.plainFile f)
          | .failed => .error .otherError

/-- State of the ISO3k3y overlay (inner file handle and tracked offset). -/
structure ISO3k3yState where
  handle : Nat
  offset : Int
deriving Repr, DecidableEq

/-- Translation of ISO3k3y.Write: always 0 bytes and syscall.EPERM, state
untouched. -/
def iso3k3yWrite (iso : ISO3k3yState) (b : List Nat) : ISO3k3yState × Int × Errno :=
  (iso, 0, .EPERM)

/-- Translation of ISO3k3y.WriteAt: always 0 bytes and syscall.EPERM. -/
def iso3k3yWriteAt (iso : ISO3k3yState) (b : List Nat) (off : Int) :
    ISO3k3yState × Int × Errno :=
  (iso, 0, .EPERM)

/-- Translation of ISO3k3y.Truncate: always syscall.EPERM. -/
def iso3k3yTruncate (iso : ISO3k3yState) (n : Int) : ISO3k3yState × Errno :=
  (iso, .EPERM)

/-- Translation of ISO3k3y.WriteString: always 0 bytes and syscall.EPERM. -/
def iso3k3yWriteString (iso : ISO3k3yState) (s : String) : ISO3k3yState × Int × Errno :=
  (iso, 0, .EPERM)

/-! ### VirtualISO.read (pkg/fs/virtual_iso.go) and its write stubs -/

/-- Record fileItem of virtual_iso_items.go: path, size in bytes, rLBA in
sectors, and the file contents standing for the on-disk file served through
the lazily opened handle. -/
structure VFileItem where
  path : String
  size : Int
  rLBA : Int
  contents : List Nat
deriving Repr, DecidableEq

/-- Record dirItem of virtual_iso_items.go restricted to what reading needs:
the files of the directory. -/
structure VDirItem where
  files : List VFileItem
deriving Repr, DecidableEq

/-- The VirtualISO fields that Read / ReadAt consult. -/
structure VirtualISOState where
  rootDir : List VDirItem
  isClosed : Bool
  totalSize : Int
  padAreaStart : Int
  padAreaSize : Int
  fsBuf : List Nat
deriving Repr, DecidableEq

/-- Translation of the firstFileLoop inner scan of dirItemList.filesToRead:
find in a file list the first file whose padded sector span covers the
offset sector, returning its index and value. -/
def findInFiles : List VFileItem → Int → Nat → Option (Nat × VFileItem)
  | [], _, _ => none
  | f :: rest, offSec, j =>
    if offSec ≥ f.rLBA ∧ offSec < f.rLBA + sectors f.size then some (j, f)
    else findInFiles rest offSec (j + 1)

/-- Translation of the firstFileLoop of dirItemList.filesToRead over the
directory list: the first matching file with its directory index and file
index. -/
def findFirstFile : List VDirItem → Int → Nat → Option (Nat × Nat × VFileItem)
  | [], _, _ => none
  | d :: rest, offSec, i =>
    match findInFiles d.files offSec 0 with
    | some jf => some (i, jf.1, jf.2)
    | none => findFirstFile rest offSec (i + 1)

/-- Translation of the inner file loop of the second loop of filesToRead:
append files while toRead stays positive; the Bool records whether the
labelled break fired. -/
def ftrInner : List VFileItem → Int → List VFileItem → List VFileItem × Int × Bool
  | [], toRead, acc => (acc, toRead, false)
  | f :: rest, toRead, acc =>
    if toRead ≤ 0 then (acc, toRead, true)
    else ftrInner rest (toRead - sectorBytes (sectors f.size)) (acc ++ [f])

/-- Translation of the outer second loop of filesToRead: the loop variable i
runs over the indices of l[startDir:] but the body reads l[i] (as in the
source), skipping startFile + 1 files when i equals startDir. -/
def ftrOuter (l : List VDirItem) (startDir startFile : Nat) :
    Nat → Nat → Int → List VFileItem → List VFileItem
  | _, 0, _, acc => acc
  | i, cnt + 1, toRead, acc =>
    let dir := l.getD i { files := [] }
    let sdf := if i = startDir then startFile + 1 else 0
    let r := ftrInner (dir.files.drop sdf) toRead acc
    if r.2.2 then r.1
    else ftrOuter l startDir startFile (i + 1) cnt r.2.1 r.1

/-- Translation of dirItemList.filesToRead (virtual_iso_items.go): locate the
file covering the read offset, account the bytes of it that the read will
consume, then keep appending subsequent files while toRead stays positive. -/
def filesToRead (l : List VDirItem) (toRead offset : Int) : List VFileItem :=
  match findFirstFile l (sectors offset) 0 with
  | none => []
  | some sf =>
    let startDir := sf.1
    let startFile := sf.2.1
    let f := sf.2.2
    let read := sectorBytes (sectors f.size) - (offset - sectorBytes f.rLBA)
    ftrOuter l startDir startFile 0 (l.length - startDir) (toRead - read) [f]

/-- Running state of VirtualISO.read: bytes produced so far, the remaining
capacity of the caller buffer, the remain counter of the source, the read
counter and the current absolute offset. -/
structure RState where
  out : List Nat
  bufLen : Nat
  remain : Int
  read : Int
  offset : Int
deriving Repr, DecidableEq

/-- Result of VirtualISO.read: the bytes stored into the caller buffer, the
returned count and the error value (none for nil). -/
structure ReadResult where
  out : List Nat
  read : Int
  err : Option String
deriving Repr, DecidableEq

/-- Translation of the post-file zero-fill of VirtualISO.read: when the file
size is not sector aligned and remain is positive, pad with zeroes up to the
sector boundary; the source raises remain to toWrite when remain is smaller
(as written in the source). -/
def zeroFillStep (f : VFileItem) (s : RState) : RState :=
  if goMod f.size sectorSize > 0 ∧ s.remain > 0 then
    let toWrite := sectorSize - goMod f.size sectorSize
    let remain1 := if s.remain < toWrite then toWrite else s.remain
    let n := (min (Int.ofNat s.bufLen) toWrite).toNat
    { out := s.out ++ List.replicate n 0, bufLen := s.bufLen - n, remain := remain1 - n
      read := s.read + n, offset := s.offset + n }
  else s

/-- Translation of the per-file loop of VirtualISO.read: bound checks against
the padded file span, a seek plus one limited read when the in-file offset
lies inside the file, then the zero fill; an error returns the read count
collected so far. -/
def visoFileLoop : List VFileItem → RState → Except ReadResult RState
  | [], s => .ok s
  | f :: rest, s =>
    if s.offset < sectorBytes f.rLBA then
      .error { out := s.out, read := s.read, err := some "file location greater than offset" }
    else if s.offset ≥ sectorBytes f.rLBA + sectorBytes (sectors f.size) then
      .error { out := s.out, read := s.read, err := some "offset greater than padded file end" }
    else
      let fileOffset := s.offset - sectorBytes f.rLBA
      if fileOffset < f.size then
        if s.remain ≤ 0 then
          .error { out := s.out, read := s.read, err := some "read failed" }
        else
          let n := (min s.remain (min (Int.ofNat s.bufLen) (f.size - fileOffset))).toNat
          let bytes := (f.contents.drop fileOffset.toNat).take n
          visoFileLoop rest (zeroFillStep f
            { out := s.out ++ bytes, bufLen := s.bufLen - n, remain := s.remain - n
              read := s.read + n, offset := s.offset + n })
      else visoFileLoop rest (zeroFillStep f s)

/-- Translation of VirtualISO.read (pkg/fs/virtual_iso.go): EOF past
totalSize or on an empty buffer; a copy out of fsBuf when the offset lies in
the in-memory prefix; the file loop over filesToRead when the offset lies
before the pad area; then the pad branch, which computes a clamped toRead but
zeroes and accounts remain bytes.  The caller buffer is modelled by its
length; the result carries the bytes written into it in order. -/
def visoRead (viso : VirtualISOState) (bufLen : Nat) (off : Int) : ReadResult :=
  if viso.isClosed then { out := [], read := 0, err := some "file closed" }
  else
    let offset := off
    let remain : Int := Int.ofNat bufLen
    if offset ≥ viso.totalSize ∨ remain = 0 then { out := [], read := 0, err := some "EOF" }
    else
      let fsBufSize : Int := Int.ofNat viso.fsBuf.length
      let s0 : RState :=
        if offset < fsBufSize then
          let endB := min (offset + remain) fsBufSize
          let chunk := (viso.fsBuf.drop offset.toNat).take (endB - offset).toNat
          let written := min bufLen chunk.length
          { out := chunk.take written, bufLen := bufLen - written
            remain := remain - written, read := written, offset := offset + written }
        else
          { out := [], bufLen := bufLen, remain := remain, read := 0, offset := offset }
      if s0.offset ≥ viso.totalSize ∨ s0.remain = 0 then
        { out := s0.out, read := s0.read, err := none }
      else
        let afterFiles : Except ReadResult RState :=
          if s0.offset < viso.padAreaStart then
            visoFileLoop (filesToRead viso.rootDir s0.remain s0.offset) s0
          else .ok s0
        match afterFiles with
        | .error r => r
        | .ok s1 =>
          if s1.offset ≥ viso.padAreaStart ∧ s1.offset < viso.totalSize then
            let toRead0 := viso.padAreaSize - (s1.offset - viso.padAreaStart)
            if toRead0 = 0 then { out := s1.out, read := s1.read, err := none }
            else
              let toRead1 := if toRead0 > s1.remain then s1.remain else toRead0
              if s1.remain > Int.ofNat s1.bufLen then
                { out := s1.out, read := s1.read, err := some "panic" }
              else
                { out := s1.out ++ List.replicate s1.remain.toNat 0
                  read := s1.read + s1.remain, err := none }
          else { out := s1.out, read := s1.read, err := none }

/-- Translation of VirtualISO.Write: always 0 bytes and syscall.EPERM, state
untouched. -/
def visoWrite (v : VirtualISOState) (b : List Nat) : VirtualISOState × Int × Errno :=
  (v, 0, .EPERM)

/-- Translation of VirtualISO.WriteAt: always 0 bytes and syscall.EPERM. -/
def visoWriteAt (v : VirtualISOState) (b : List Nat) (off : Int) :
    VirtualISOState × Int × Errno :=
  (v, 0, .EPERM)

/-- Translation of VirtualISO.Truncate: always syscall.EPERM. -/
def visoTruncate (v : VirtualISOState) (n : Int) : VirtualISOState × Errno :=
  (v, .EPERM)

/-- Translation of VirtualISO.WriteString: always 0 bytes and syscall.EPERM. -/
def visoWriteString (v : VirtualISOState) (s : String) : VirtualISOState × Int × Errno :=
  (v, 0, .EPERM)

/-- Oracle environment for the C10 witness: the underlying open always
fails, the virtual-ISO builder always succeeds. -/
def c10Env : FsEnv :=
  { openRaw := fun _ _ => none, visoOk := fun _ _ => true
    redumpKey := fun _ => .notFound, probe3k3y := fun _ => .not3k3y
    encHeaderOk := fun _ _ => true }

/-- Concrete VirtualISO state for the C7 pad-area evaluation: a 2-byte
in-memory prefix, no files, a pad area of 4 bytes and a total size of 6
bytes (the read code treats all size fields as opaque byte counts, so the
scaled-down image exercises exactly the same branches). -/
def c7Viso : VirtualISOState :=
  { rootDir := [], isClosed := false, totalSize := 6, padAreaStart := 2
    padAreaSize := 4, fsBuf := [1, 2] }

/-! ### VirtualISO.scanDirectory (pkg/fs/virtual_iso.go) -/

/-- Directory tree behind the afero filesystem that scanDirectory walks: a
directory has a name, its regular files (name and size, in Readdirnames
order among the files) and its subdirectories (in Readdirnames order among
the directories).  The scan dispatches every entry by Stat into exactly one
of the two groups, and the relative order inside each group is all that its
output depends on, so the two groups are kept as two lists. -/
inductive WTree where
  | node : String → List (String × Nat) → List WTree → WTree

/-- Name of the directory. -/
def WTree.name : WTree → String
  | .node n _ _ => n

/-- Regular files of the directory: name and Stat size. -/
def WTree.fls : WTree → List (String × Nat)
  | .node _ fs _ => fs

/-- Subdirectories of the directory. -/
def WTree.subs : WTree → List WTree
  | .node _ _ sd => sd

mutual

/-- Number of directories in a tree; the measure of the scan queue. -/
def nodeCount : WTree → Nat
  | .node _ _ sd => 1 + nodeCountList sd

/-- Number of directories in a forest. -/
def nodeCountList : List WTree → Nat
  | [] => 0
  | t :: rest => nodeCount t + nodeCountList rest

end

/-- Total directory count of a scan queue. -/
def queueMeasure (qs : List (String × WTree)) : Nat :=
  (qs.map (fun x => nodeCount x.2)).sum

/-- Model of filepath.Join of a directory path and a child name. -/
def joinPath (dir name : String) : String := dir ++ "/" ++ name

/-- Record fileItem as scanDirectory fills it: path, name, Stat size and the
assigned rLBA (sizeSectors). -/
structure ScanFileItem where
  path : String
  name : String
  size : Nat
  rLBA : Int
deriving Repr, DecidableEq

/-- Record dirItem as scanDirectory fills it: path, name and its files. -/
structure ScanDirItem where
  path : String
  name : String
  files : List ScanFileItem
deriving Repr, DecidableEq

/-- Translation of the per-entry file handling of scanDirectory: each file
of the directory becomes a fileItem whose rLBA is the running
filesSizeSectors counter, which then grows by the ceil sector count of the
file size. -/
def scanDirFiles (dirPath : String) : List (String × Nat) → Int →
    List ScanFileItem × Int
  | [], cur => ([], cur)
  | (n, sz) :: rest, cur =>
    let r := scanDirFiles dirPath rest (cur + sectors (Int.ofNat sz))
    ({ path := joinPath dirPath n, name := n, size := sz, rLBA := cur } :: r.1, r.2)

/-- Translation of the queue loop of VirtualISO.scanDirectory
(pkg/fs/virtual_iso.go:273-280): while the queue is nonempty, pop the BACK
entry (the Go code reads `dir := queue[len(queue)-1]` and then truncates
with `queue = queue[:len(queue)-1]`), emit the popped directory's dirItem
holding its fileItems, append its subdirectories at the back of the queue,
and continue with the grown filesSizeSectors counter.  The recursion is
indexed by a fuel counter so that it stays structural (kernel reducible);
every iteration removes one directory from the queue and enqueues exactly
its immediate subdirectories, so the total directory count of the queue
falls by exactly one per pop and queueMeasure is the exact iteration count
of the loop (scanLoop_step below proves the wrapper satisfies precisely the
recurrence of the Go loop). -/
def scanLoopAux : Nat → List (String × WTree) → Int → List ScanDirItem × Int
  | 0, _, cur => ([], cur)
  | fuel + 1, queue, cur =>
    match queue.getLast? with
    | none => ([], cur)
    | some pt =>
      let fr := scanDirFiles pt.1 pt.2.fls cur
      let ds := pt.2.subs.map (fun c => (joinPath pt.1 c.name, c))
      let r := scanLoopAux fuel (queue.dropLast ++ ds) fr.2
      ({ path := pt.1, name := pt.2.name, files := fr.1 } :: r.1, r.2)

/-- The scan loop, run with its exact fuel. -/
def scanLoop (queue : List (String × WTree)) (cur : Int) : List ScanDirItem × Int :=
  scanLoopAux (queueMeasure queue) queue cur

/-- Translation of VirtualISO.scanDirectory: the queue starts holding the
root path, the counter at zero. -/
def scanDirectory (rootPath : String) (root : WTree) : List ScanDirItem × Int :=
  scanLoop [(rootPath, root)] 0

/-- Files of a scan result in scan order. -/
def scanFiles (items : List ScanDirItem) : List ScanFileItem :=
  (items.map (fun d => d.files)).flatten

/-- Next breadth-first level of a queue: all subdirectories of its
directories, with joined paths, in order. -/
def levelSubs (level : List (String × WTree)) : List (String × WTree) :=
  (level.map (fun x => x.2.subs.map (fun c => (joinPath x.1 c.name, c)))).flatten

/-- Specification-side breadth-first order of directory paths, defined by
levels following the claim's words: the paths of the current level followed
by the breadth-first order of the next level.  Fuel-indexed to stay
structural; each nonempty level carries at least one directory, so the
queue measure strictly falls per level and is always enough fuel. -/
def specBFSLevelsAux : Nat → List (String × WTree) → List String
  | 0, _ => []
  | fuel + 1, level =>
    if level.isEmpty then []
    else level.map (fun x => x.1) ++ specBFSLevelsAux fuel (levelSubs level)

/-- The level-based breadth-first directory order, run with enough fuel. -/
def specBFSLevels (level : List (String × WTree)) : List String :=
  specBFSLevelsAux (queueMeasure level) level

/-- Specification-side breadth-first order of file paths: the files of the
current level's directories (joined paths, per directory in level order)
followed by the files of the deeper levels. -/
def specBFSFilePathsAux : Nat → List (String × WTree) → List String
  | 0, _ => []
  | fuel + 1, level =>
    if level.isEmpty then []
    else (level.map (fun x => x.2.fls.map (fun e => joinPath x.1 e.1))).flatten
      ++ specBFSFilePathsAux fuel (levelSubs level)

/-- The level-based breadth-first file order, run with enough fuel. -/
def specBFSFilePaths (level : List (String × WTree)) : List String :=
  specBFSFilePathsAux (queueMeasure level) level

/-- The rLBA that the scan assigned to the file at a given path (0 when the
path was not scanned). -/
def rlbaAt (items : List ScanFileItem) (p : String) : Int :=
  ((items.filter (fun f => f.path == p)).map (fun f => f.rLBA)).headD 0

/-- Concrete directory tree refuting the breadth-first claim: the root
holds subdirectory a (file x of 1 byte, empty subdirectory c) and
subdirectory b (subdirectory d holding file w of 1 byte).  Every
breadth-first order visits a (depth 1) before d (depth 2) and hence scans
file x before file w, whatever the sibling order. -/
def c5Tree : WTree :=
  .node "root" []
    [.node "a" [("x", 1)] [.node "c" [] []],
     .node "b" [] [.node "d" [("w", 1)] []]]

end Ps3netsrv

namespace Ps3netsrv

/-! ## Theorems -/

/-- Helper: for a nonnegative Go int64, the Go % by a nonnegative constant
agrees with the Euclidean remainder of Int. -/
theorem goMod_eq_emod (a b : Int) (ha : 0 ≤ a) (hb : 0 ≤ b) : goMod a b = a % b :=
  Int.tmod_eq_emod ha hb

/-- C4: for every successfully built VirtualISO (sector counts are
nonnegative), calculateSizes sets totalSize to the byte size of the file
region start plus the total file sectors rounded up to a multiple of 32
sectors with an extra 32 sectors added; hence totalSize is a multiple of
32 * 2048 bytes; padAreaStart is the byte offset of the end of the file data
and padAreaSize is exactly totalSize - padAreaStart. -/
theorem calculateSizes_c4 (filesLBA filesSizeSectors : Int)
    (h1 : 0 ≤ filesLBA) (h2 : 0 ≤ filesSizeSectors) :
    (calculateSizes filesLBA filesSizeSectors).totalSize =
      sectorBytes (ceilTo32Sectors (filesLBA + filesSizeSectors) + basePadSectors) ∧
    (calculateSizes filesLBA filesSizeSectors).totalSize % (32 * 2048) = 0 ∧
    (calculateSizes filesLBA filesSizeSectors).padAreaStart =
      sectorBytes (filesLBA + filesSizeSectors) ∧
    (calculateSizes filesLBA filesSizeSectors).padAreaSize =
      (calculateSizes filesLBA filesSizeSectors).totalSize -
        (calculateSizes filesLBA filesSizeSectors).padAreaStart := by
  have hv : (0 : Int) ≤ filesLBA + filesSizeSectors := by omega
  have hm : goMod (filesLBA + filesSizeSectors) 32 = (filesLBA + filesSizeSectors) % 32 :=
    goMod_eq_emod (filesLBA + filesSizeSectors) 32 hv (by norm_num)
  simp only [calculateSizes, ceilTo32Sectors, sectorBytes, sectorSize, basePadSectors,
    eq_self_iff_true, true_and, and_true]
  rw [hm, show (32 : Int) * 2048 = 65536 by norm_num]
  split_ifs with h <;> omega

/-- Witness for C4 at the concrete input filesLBA = 24, filesSizeSectors = 10. -/
theorem calculateSizes_c4_witness :
    (calculateSizes 24 10).totalSize =
      sectorBytes (ceilTo32Sectors (24 + 10) + basePadSectors) ∧
    (calculateSizes 24 10).totalSize % (32 * 2048) = 0 ∧
    (calculateSizes 24 10).padAreaStart = sectorBytes (24 + 10) ∧
    (calculateSizes 24 10).padAreaSize =
      (calculateSizes 24 10).totalSize - (calculateSizes 24 10).padAreaStart :=
  calculateSizes_c4 24 10 (by decide) (by decide)

/-- C2 (code bug): on a valid two-region header, with unencrypted regions
(0,1) and (2,3), NewEncryptedISO builds the encrypted-range list
[(0,0), (1,2)] of length 2 instead of exactly region_count - 1 = 1 range: the
accumulator make([]region, hdr.Count-1) already holds hdr.Count - 1 zero-value
ranges before the gaps are appended.  The zero-value range is never selected
by decryptData, so a read of the first 4 sectors still decrypts exactly the
gap sector 1. -/
theorem newEncryptedISORegions_c2_bug :
    newEncryptedISORegions [{ start := 0, stop := 1 }, { start := 2, stop := 3 }] =
      .ok [{ start := 0, stop := 0 }, { start := 1, stop := 2 }] ∧
    ([{ start := 0, stop := 0 }, { start := 1, stop := 2 }] : List EncRegion).length ≠
      ([{ start := 0, stop := 1 }, { start := 2, stop := 3 }] : List URegion).length - 1 ∧
    decryptedSectors [{ start := 0, stop := 0 }, { start := 1, stop := 2 }] 0 8192 =
      [1] :=
  ⟨rfl, by decide, by decide⟩

/-- C6 (code bug): a 16-byte read whose start offset 0xF80 lies strictly
inside the masked range [0xF70, 0x1070) makes clear3k3yData start its zeroing
loop at the negative index 0xF70 - 0xF80 = -16, so the Go code panics with an
out-of-range slice index (result none) instead of returning the zeroed
bytes. -/
theorem clear3k3yData_c6_bug :
    clear3k3yData 0xF80 (List.replicate 16 0xAB) = none ∧
    clear3k3yData 0xF60 (List.replicate 32 0xAB) =
      some (List.replicate 16 0xAB ++ List.replicate 16 0) := by decide

/-- C1 (code bug): with writes allowed, CREATE_FILE on a path that does not
exist yet replies an error and opens nothing, because HandleCreateFile
propagates the failure of the Stat call that was only meant to detect the
existing-directory case; the create-plus-truncate open is never reached.  In
consequence the documented scenario CREATE_FILE then WRITE_FILE of "ABC" then
a closing CREATE_FILE leaves no file at all at the path.  The two conjuncts
at the end show the intact paths: an existing directory still replies 0 with
no write-only file open, and an existing regular file is truncated and
installed as the write slot. -/
theorem handleCreateFile_c1_bug :
    handleCreateFile true [] none "new.bin" = { fs := [], woFile := none, ok := false } ∧
    (let r1 := handleCreateFile true [] none "new.bin"
     let r2 := handleWriteFile true r1.fs r1.woFile [0x41, 0x42, 0x43]
     let r3 := handleCreateFile true r2.1 r1.woFile "new.bin"
     lookupFs r3.fs "new.bin" = none ∧ r2.2 = -1) ∧
    handleCreateFile true [("d", .dirE)] none "d" =
      { fs := [("d", .dirE)], woFile := none, ok := true } ∧
    handleCreateFile true [("old.bin", .fileE [9])] none "old.bin" =
      { fs := [("old.bin", .fileE [])], woFile := some "old.bin", ok := true } := by
  decide

/-- C3 (code bug): GET_DIR_SIZE ignores its path argument -- afero.Walk is
started at "." (the share root) -- so the replies for the two different
directories a and b are both 3, the total size of the whole share, although
the trees rooted at a and b hold 1 and 2 bytes respectively. -/
theorem handleGetDirSize_c3_bug :
    handleGetDirSize c3Files ["a"] = 3 ∧
    handleGetDirSize c3Files ["b"] = 3 ∧
    walkSizeSum c3Files ["a"] = 1 ∧
    walkSizeSum c3Files ["b"] = 2 := by decide

/-- Helper for C8: Copier.CopyN never returns, whatever fuel it is given:
its first statement is an unconditional call to itself with unchanged
arguments. -/
theorem copierCopyN_diverges (fuel : Nat) (src : List Nat) (n : Int) :
    copierCopyN fuel src n = none := by
  induction fuel with
  | zero => rfl
  | succ k ih => simp [copierCopyN, ih]

/-- C8 (code bug): with a read-only file of 3000 bytes open and the default
sector size 2352 detected, READ_CD_2048_CRITICAL for one sector starting at
sector 0 never streams anything: Copier.CopyN recurses into itself with
unchanged arguments before doing any work, so the handler diverges (in Go, a
stack overflow) for every amount of fuel, instead of streaming the
2048 bytes at offset 24. -/
theorem handleReadCD2048Critical_c8_bug (fuel : Nat) :
    handleReadCD2048Critical fuel
      { roFile := some c8File, cdSectorSize := 2352 } 0 1 = none := by
  have hd : copierCopyN fuel (c8File.drop (Int.toNat (24 + Int.ofNat 0 * 2352))) 2048 = none :=
    copierCopyN_diverges fuel (c8File.drop (Int.toNat (24 + Int.ofNat 0 * 2352))) 2048
  show readCDLoop fuel c8File 2352 (24 + Int.ofNat 0 * 2352) 1 [] = none
  unfold readCDLoop
  rw [if_neg (by norm_num), hd]

/-- C9 counterexample: on a filesystem where Open succeeds but the Stat on
the opened handle fails, HandleOpenDir returns with the freshly opened handle
number 0 neither closed nor stored in the session state: the handle leaks,
refuting the no-leak claim on this error path. -/
theorem handleOpenDir_c9_counterexample :
    leakedHandles (handleOpenDir c9BrokenFs c9State0 "d") = [0] := by decide

/-- Helper for C9: HandleOpenFile never leaks: either the open fails and no
handle was created, or the new handle is stored in the read-only slot. -/
theorem handleOpenFile_no_leak (fs : HFs) (st : HState) (path : String) :
    leakedHandles (handleOpenFile fs st path) = [] := by
  cases hO : fs.openOk path <;>
    simp [handleOpenFile, leakedHandles, handleInState, hO, List.filter]

/-- Helper for C9: HandleCreateFile never leaks: the only handle it can open
is stored in the write-only slot on the same path. -/
theorem handleCreateFileHandles_no_leak (allowWrite : Bool) (fs : HFs) (st : HState)
    (path : String) :
    leakedHandles (handleCreateFileHandles allowWrite fs st path) = [] := by
  cases allowWrite <;> cases hP : fs.statPathOk path <;>
    cases hD : fs.statPathIsDir path <;> cases hC : fs.createOk path <;>
    simp [handleCreateFileHandles, leakedHandles, handleInState, hP, hD, hC, List.filter]

/-- Helper for C9: the handles leaked by HandleOpenDir are exactly the fresh
handle when the open succeeds and the Stat on the handle fails, and none
otherwise. -/
theorem handleOpenDir_leak_eq (fs : HFs) (st : HState) (path : String)
    (hwf : stateWf st = true) :
    leakedHandles (handleOpenDir fs st path) =
      (if fs.openOk path && !fs.statOk path then [st.nextHandle] else []) := by
  rcases st with ⟨c, r, w, nh⟩
  simp only [stateWf, Bool.and_eq_true] at hwf
  cases hO : fs.openOk path <;> cases hS : fs.statOk path <;>
    rcases c with _ | hc <;> rcases r with _ | hr <;> rcases w with _ | hw <;>
    simp_all [handleOpenDir, leakedHandles, handleInState, List.filter] <;>
    try (split <;> simp_all) <;> omega

/-- Helper for C9: HandleOpenDir closes exactly the previously held directory
handle, and only when it installs the replacement (open and Stat both
succeeded). -/
theorem handleOpenDir_closed_eq (fs : HFs) (st : HState) (path : String) :
    (handleOpenDir fs st path).closed =
      (if fs.openOk path && fs.statOk path then st.cwdHandle.toList else []) := by
  rcases st with ⟨c, r, w, nh⟩
  cases hO : fs.openOk path <;> cases hS : fs.statOk path <;>
    rcases c with _ | hc <;> simp [handleOpenDir, hO, hS]

/-- Helper for C9: HandleOpenFile always closes the previously held read-only
file first. -/
theorem handleOpenFile_closed_eq (fs : HFs) (st : HState) (path : String) :
    (handleOpenFile fs st path).closed = st.roFile.toList := by
  cases hO : fs.openOk path <;> simp [handleOpenFile, hO]

/-- Helper for C9: with writes allowed HandleCreateFile always closes the
previously held write-only file first; without them it touches nothing. -/
theorem handleCreateFileHandles_closed_eq (allowWrite : Bool) (fs : HFs) (st : HState)
    (path : String) :
    (handleCreateFileHandles allowWrite fs st path).closed =
      (if allowWrite then st.woFile.toList else []) := by
  cases allowWrite <;> cases hP : fs.statPathOk path <;>
    cases hD : fs.statPathIsDir path <;> cases hC : fs.createOk path <;>
    simp [handleCreateFileHandles, hP, hD, hC]

/-- C9 (amended): for every filesystem behaviour, sane session state and
path: OPEN_FILE and CREATE_FILE never leak a handle; OPEN_DIR leaks exactly
the newly opened handle in the one case where its Stat fails after a
successful open (and no handle otherwise); OPEN_DIR closes the previous
directory handle exactly when installing a replacement; OPEN_FILE always
closes the previous read-only file first; CREATE_FILE closes the previous
write-only file whenever writes are allowed. -/
theorem sessionHandles_c9_amended (fs : HFs) (st : HState) (path : String)
    (allowWrite : Bool) (hwf : stateWf st = true) :
    leakedHandles (handleOpenFile fs st path) = [] ∧
    leakedHandles (handleCreateFileHandles allowWrite fs st path) = [] ∧
    leakedHandles (handleOpenDir fs st path) =
      (if fs.openOk path && !fs.statOk path then [st.nextHandle] else []) ∧
    (handleOpenDir fs st path).closed =
      (if fs.openOk path && fs.statOk path then st.cwdHandle.toList else []) ∧
    (handleOpenFile fs st path).closed = st.roFile.toList ∧
    (handleCreateFileHandles allowWrite fs st path).closed =
      (if allowWrite then st.woFile.toList else []) :=
  ⟨handleOpenFile_no_leak fs st path,
   handleCreateFileHandles_no_leak allowWrite fs st path,
   handleOpenDir_leak_eq fs st path hwf,
   handleOpenDir_closed_eq fs st path,
   handleOpenFile_closed_eq fs st path,
   handleCreateFileHandles_closed_eq allowWrite fs st path⟩

/-- Witness for the amended C9 theorem at the all-succeeding filesystem, the
fresh session state, path p and writes allowed. -/
theorem sessionHandles_c9_amended_witness :
    leakedHandles (handleOpenFile c9OkFs c9State0 "p") = [] ∧
    leakedHandles (handleCreateFileHandles true c9OkFs c9State0 "p") = [] ∧
    leakedHandles (handleOpenDir c9OkFs c9State0 "p") =
      (if c9OkFs.openOk "p" && !c9OkFs.statOk "p" then [c9State0.nextHandle] else []) ∧
    (handleOpenDir c9OkFs c9State0 "p").closed =
      (if c9OkFs.openOk "p" && c9OkFs.statOk "p" then c9State0.cwdHandle.toList else []) ∧
    (handleOpenFile c9OkFs c9State0 "p").closed = c9State0.roFile.toList ∧
    (handleCreateFileHandles true c9OkFs c9State0 "p").closed =
      (if true then c9State0.woFile.toList else []) :=
  sessionHandles_c9_amended c9OkFs c9State0 "p" true (by decide)

/-- C10: for every path the code classifies as a virtual-ISO path (magic
DVD or PS3 mask) and every flag set containing a modifying flag, FS.OpenFile
fails with EPERM without building a virtual ISO, whatever the collaborator
environment does; and every write-style method of the ISO3k3y and VirtualISO
overlays returns EPERM with zero bytes written, leaving the overlay state
unchanged. -/
theorem fsOpenFile_c10 :
    (∀ (env : FsEnv) (path : GoStr) (flags : Nat),
      (translatePath path).2 ≠ GoFileType.genericFile →
      modificationsEnabled flags = true →
      fsOpenFile env path flags = .error .EPERM) ∧
    (∀ (iso : ISO3k3yState) (v : VirtualISOState) (b : List Nat) (off n : Int) (s : String),
      iso3k3yWrite iso b = (iso, 0, .EPERM) ∧
      iso3k3yWriteAt iso b off = (iso, 0, .EPERM) ∧
      iso3k3yTruncate iso n = (iso, .EPERM) ∧
      iso3k3yWriteString iso s = (iso, 0, .EPERM) ∧
      visoWrite v b = (v, 0, .EPERM) ∧
      visoWriteAt v b off = (v, 0, .EPERM) ∧
      visoTruncate v n = (v, .EPERM) ∧
      visoWriteString v s = (v, 0, .EPERM)) := by
  constructor
  · intro env path flags htyp hmod
    rcases hcase : (translatePath path).2 <;>
      simp_all [fsOpenFile, hmod, hcase]
  · intro iso v b off n s
    exact ⟨rfl, rfl, rfl, rfl, rfl, rfl, rfl, rfl⟩

/-- Witness for C10 at the path /x2aDVDx2a/game (with the magic mask, as
bytes) opened with O_WRONLY, and concrete overlay states. -/
theorem fsOpenFile_c10_witness :
    fsOpenFile c10Env (virtualISOMask ++ [47, 103, 97, 109, 101]) 1 = .error .EPERM ∧
    iso3k3yWrite { handle := 0, offset := 0 } [1] =
      ({ handle := 0, offset := 0 }, 0, .EPERM) ∧
    visoWrite c7Viso [1] = (c7Viso, 0, .EPERM) :=
  ⟨fsOpenFile_c10.1 c10Env (virtualISOMask ++ [47, 103, 97, 109, 101]) 1 (by decide) (by decide),
   (fsOpenFile_c10.2 { handle := 0, offset := 0 } c7Viso [1] 0 0 "").1,
   (fsOpenFile_c10.2 { handle := 0, offset := 0 } c7Viso [1] 0 0 "").2.2.2.2.1⟩

/-- C7 (code bug): on a VirtualISO with totalSize 6, padAreaStart 2 and
padAreaSize 4, a 3-byte read at offset 5 (inside the pad area, one byte
before the end of the image) returns the full 3 zero bytes and count 3,
although only totalSize - 5 = 1 byte of image remains: the pad branch clamps
toRead to the remaining image size but then zeroes and accounts remain bytes.
Reads at or past totalSize do return EOF with no bytes. -/
theorem visoRead_c7_bug :
    visoRead c7Viso 3 5 = { out := [0, 0, 0], read := 3, err := none } ∧
    c7Viso.totalSize - 5 = 1 ∧
    visoRead c7Viso 3 6 = { out := [], read := 0, err := some "EOF" } ∧
    visoRead c7Viso 3 7 = { out := [], read := 0, err := some "EOF" } := by decide

/-! ### C5: breadth-first scan order and rLBA layout -/

/-- Helper: a forest count is the sum of its tree counts. -/
theorem nodeCountList_eq (l : List WTree) :
    nodeCountList l = (l.map (fun c => nodeCount c)).sum := by
  induction l with
  | nil => rfl
  | cons x xs ih => rw [nodeCountList, ih, List.map_cons, List.sum_cons]

/-- Helper: a tree count is one plus the counts of its subdirectories. -/
theorem nodeCount_eq (t : WTree) :
    nodeCount t = 1 + (t.subs.map (fun c => nodeCount c)).sum := by
  cases t with
  | node nm fl sd => rw [nodeCount, nodeCountList_eq]; rfl

/-- Helper: the queue measure is additive over queue concatenation. -/
theorem queueMeasure_append (a b : List (String × WTree)) :
    queueMeasure (a ++ b) = queueMeasure a + queueMeasure b := by
  simp [queueMeasure, List.map_append, List.sum_append]

/-- Helper: the measure of the enqueued subdirectories of one directory. -/
theorem queueMeasure_subsMap (p : String) (t : WTree) :
    queueMeasure (t.subs.map (fun c => (joinPath p c.name, c))) =
      (t.subs.map (fun c => nodeCount c)).sum := by
  simp [queueMeasure, List.map_map, Function.comp_def]

/-- Helper: the fuel wrapper satisfies exactly the recurrence of the Go
loop: on a nonempty queue the scan pops the BACK entry, emits its dirItem
and continues on the shortened queue extended at the back with the popped
directory's subdirectories -- so the fuel bookkeeping of scanLoopAux never
cuts a run short. -/
theorem scanLoop_step (queue : List (String × WTree)) (pt : String × WTree)
    (h : queue.getLast? = some pt) (cur : Int) :
    scanLoop queue cur =
      ({ path := pt.1, name := pt.2.name,
         files := (scanDirFiles pt.1 pt.2.fls cur).1 } ::
        (scanLoop (queue.dropLast ++ pt.2.subs.map (fun c => (joinPath pt.1 c.name, c)))
          (scanDirFiles pt.1 pt.2.fls cur).2).1,
       (scanLoop (queue.dropLast ++ pt.2.subs.map (fun c => (joinPath pt.1 c.name, c)))
         (scanDirFiles pt.1 pt.2.fls cur).2).2) := by
  have hne : queue ≠ [] := by
    intro hq
    rw [hq] at h
    simp at h
  have hq : queue = queue.dropLast ++ [pt] := by
    have h1 := List.dropLast_append_getLast hne
    have h2 : queue.getLast hne = pt := by
      have h3 := List.getLast?_eq_getLast queue hne
      rw [h3] at h
      exact Option.some_inj.mp h
    rw [h2] at h1
    exact h1.symm
  have hm : queueMeasure queue =
      queueMeasure (queue.dropLast ++ pt.2.subs.map (fun c => (joinPath pt.1 c.name, c))) + 1 := by
    conv_lhs => rw [hq]
    rw [queueMeasure_append, queueMeasure_append, queueMeasure_subsMap]
    have h1 : queueMeasure [pt] = nodeCount pt.2 := by simp [queueMeasure]
    have h2 := nodeCount_eq pt.2
    omega
  show scanLoopAux (queueMeasure queue) queue cur = _
  rw [hm]
  simp only [scanLoopAux, h]
  rfl

/-- Witness for the step equation: on the singleton queue holding c5Tree
the popped entry is the root itself. -/
theorem scanLoop_step_witness :
    [("root", c5Tree)].getLast? = some ("root", c5Tree) ∧
    scanLoop [("root", c5Tree)] 0 =
      ({ path := ("root", c5Tree).1, name := ("root", c5Tree).2.name,
         files := (scanDirFiles ("root", c5Tree).1 ("root", c5Tree).2.fls 0).1 } ::
        (scanLoop ([("root", c5Tree)].dropLast ++ ("root", c5Tree).2.subs.map
            (fun c => (joinPath ("root", c5Tree).1 c.name, c)))
          (scanDirFiles ("root", c5Tree).1 ("root", c5Tree).2.fls 0).2).1,
       (scanLoop ([("root", c5Tree)].dropLast ++ ("root", c5Tree).2.subs.map
           (fun c => (joinPath ("root", c5Tree).1 c.name, c)))
         (scanDirFiles ("root", c5Tree).1 ("root", c5Tree).2.fls 0).2).2) :=
  ⟨rfl, scanLoop_step [("root", c5Tree)] ("root", c5Tree) rfl 0⟩

/-- C5: refutation of the breadth-first claim on the concrete tree c5Tree
(root holding subdirectory a with file x and empty subdirectory c, and
subdirectory b with subdirectory d holding file w; both files 1 byte).  The
scan pops the BACK of its queue, so it emits the directories in the
depth-priority order root, root/b, root/b/d, root/a, root/a/c -- root/b/d
lies at depth 2 yet precedes root/a at depth 1, so the order is not
breadth-first under any sibling ordering -- while the level-based
breadth-first order of the same tree is root, root/a, root/b, root/a/c,
root/b/d.  The scan reaches file w before file x, so in breadth-first file
order (x then w, under any sibling ordering, since x is shallower) the
assigned rLBAs read [1, 0]: file x does not start at sector 0, the sum of
the sizes of the files before it in BFS order, and the rLBA sequence is
decreasing rather than monotonically increasing. -/
theorem scanDirectory_c5_bug :
    (scanDirectory "root" c5Tree).1.map (fun d => d.path) =
        ["root", "root/b", "root/b/d", "root/a", "root/a/c"] ∧
    specBFSLevels [("root", c5Tree)] =
        ["root", "root/a", "root/b", "root/a/c", "root/b/d"] ∧
    (scanDirectory "root" c5Tree).1.map (fun d => d.path) ≠
        specBFSLevels [("root", c5Tree)] ∧
    scanFiles (scanDirectory "root" c5Tree).1 =
        [{ path := "root/b/d/w", name := "w", size := 1, rLBA := 0 },
         { path := "root/a/x", name := "x", size := 1, rLBA := 1 }] ∧
    specBFSFilePaths [("root", c5Tree)] = ["root/a/x", "root/b/d/w"] ∧
    (specBFSFilePaths [("root", c5Tree)]).map
        (rlbaAt (scanFiles (scanDirectory "root" c5Tree).1)) = [1, 0] ∧
    ¬ List.Sorted (· ≤ ·) ((specBFSFilePaths [("root", c5Tree)]).map
        (rlbaAt (scanFiles (scanDirectory "root" c5Tree).1))) := by
  refine ⟨by decide, by decide, by decide, by decide, by decide, by decide, ?_⟩
  intro hs
  have h01 : (1 : Int) ≤ 0 := by
    have hv : (specBFSFilePaths [("root", c5Tree)]).map
        (rlbaAt (scanFiles (scanDirectory "root" c5Tree).1)) = [1, 0] := by decide
    rw [hv] at hs
    exact List.rel_of_sorted_cons hs 0 (by simp)
  omega

end Ps3netsrv
